import Mathlib

/-!
Verification of the pure-Python module `lychrel/py.py`.

The module defines three functions:

* `fibonacci(n, p=1, q=-1)` — generalized Fibonacci / Lucas stepper,
  `F(n) = p*F(n-1) - q*F(n-2)`;
* `find_lychrel_palindrome(number)` — reverse-and-add search returning the
  first palindrome reached together with the number of additions performed;
* `collatz(start)` — a generator yielding the Collatz trajectory from
  `start` down to 1, guarded by `if start <= 0: raise ValueError(...)`.

The embedding below mirrors the source line by line: string conversion and
string reversal become decimal digit lists (most significant digit first,
exactly the order of Python's `str`), `int(...)` of a digit string becomes a
positional fold, the unbounded `while` loop becomes a fuel-indexed function
(`findLychrel fuel n = some (v, k)` means the loop finishes within `fuel`
additions), and the generator becomes an explicit suspended-state machine
whose `pyNext` models one `next()` resumption.
-/

/-! ### Decimal digits, `str`, `int` and string reversal -/

/-- Little-endian decimal digits of `n`, with explicit fuel so that the
kernel can evaluate it; `digitsLEAux fuel n` agrees with `Nat.digits 10 n`
whenever `n ≤ fuel`. -/
def digitsLEAux : ℕ → ℕ → List ℕ
  | 0, _ => []
  | fuel + 1, n => if n = 0 then [] else n % 10 :: digitsLEAux fuel (n / 10)

/-- The digit list of Python's `str(n)`, most significant digit first.
`str(0) = "0"`, a single zero digit; otherwise the decimal digits with no
leading zeros. -/
def strDigits (n : ℕ) : List ℕ :=
  if n = 0 then [0] else (digitsLEAux n n).reverse

/-- The test `s == s[::-1]` performed by `find_lychrel_palindrome` on the
decimal string of the current value. -/
def isPal (n : ℕ) : Bool :=
  decide (strDigits n = (strDigits n).reverse)

/-- Python's `int(...)` applied to a digit string given most significant
digit first: the usual positional value.  Leading zeros contribute nothing,
exactly as `int("021") = 21`. -/
def ofDigitsBE : List ℕ → ℕ
  | [] => 0
  | d :: l => d * 10 ^ l.length + ofDigitsBE l

/-- `int(str(n)[::-1])`: reverse the decimal string of `n` and parse it
back, which drops digits that become leading zeros. -/
def pyReverse (n : ℕ) : ℕ :=
  ofDigitsBE ((strDigits n).reverse)

/-- One reverse-and-add step `x -> x + int(str(x)[::-1])`, the body of the
`while` loop of `find_lychrel_palindrome`. -/
def stepRA (n : ℕ) : ℕ :=
  n + pyReverse n

/-- `find_lychrel_palindrome`, fuel-indexed: `findLychrel fuel n = some (v, k)`
states that the unbounded loop, started at `n`, performs `k ≤ fuel`
additions and returns the pair `(v, k)`; `none` states that no palindrome is
reached within `fuel` additions. -/
def findLychrel : ℕ → ℕ → Option (ℕ × ℕ)
  | 0, n => if isPal n then some (n, 0) else none
  | fuel + 1, n =>
    if isPal n then some (n, 0)
    else
      match findLychrel fuel (n + pyReverse n) with
      | some (v, k) => some (v, k + 1)
      | none => none

/-! ### `fibonacci(n, p=1, q=-1)` -/

/-- State of the loop `for _ in range(1, n): n1, n2 = n2, p * n2 - q * n1`
of `fibonacci`, after `k` iterations, started from `n1, n2 = 0, 1`. -/
def fibLoop (p q : ℤ) : ℕ → ℤ × ℤ
  | 0 => (0, 1)
  | k + 1 =>
    let s := fibLoop p q k
    (s.2, p * s.2 - q * s.1)

/-- `fibonacci(n, p, q)`: `if n in (0, 1): return n`, otherwise run the loop
over `range(1, n)` — which iterates `n - 1` times when `n > 1` and zero
times otherwise — and return `n2`. -/
def fibonacci (n p q : ℤ) : ℤ :=
  if n = 0 ∨ n = 1 then n else (fibLoop p q (n - 1).toNat).2

/-! ### `collatz(start)` -/

/-- The exceptions the `collatz` body can raise: the explicit
`ValueError` of the `start <= 0` guard, and the `OverflowError` that
CPython's int true division `n / 2` raises when the quotient is too
large to convert to a binary64 float. -/
inductive PyExn where
  | valueError (msg : String)
  | overflowError (msg : String)
deriving DecidableEq

/-- Result of one `next()` call on a Python generator: a yielded value, a
raised exception, or `StopIteration`. -/
inductive PyNext where
  | val (v : ℤ)
  | exn (e : PyExn)
  | stop
deriving DecidableEq

/-- Suspension state of the `collatz` generator.  `start s` is the state
right after the generator object is created — no body code has run yet, the
`start <= 0` guard included.  `yielded n` is the state suspended at a
`yield` with loop variable `n`; `done` is exhausted (or failed). -/
inductive GenState where
  | start (s : ℤ)
  | yielded (n : ℤ)
  | done
deriving DecidableEq

/-- The exact value of the loop body `n = 3 * n + 1 if n % 2 else n / 2`
when it completes.  The source computes the even branch with Python's true
division `n / 2`, which converts to a *float*: on even `n` whose half is
exactly representable in binary64 the two agree, `reprDouble` below
delimits where the conversion rounds, and `pyNext` below models the
`OverflowError` the conversion raises when the half is beyond the
binary64 range. -/
def collatzStep (n : ℤ) : ℤ :=
  if n % 2 ≠ 0 then 3 * n + 1 else n / 2

/-- The smallest magnitude at which CPython's int true division
overflows: quotients whose absolute value reaches `2 ^ 1024 - 2 ^ 970`
round (half-even) past the largest finite double `2 ^ 1024 - 2 ^ 971`
to `2 ^ 1024`, and `int.__truediv__` raises `OverflowError` instead of
returning an infinite float.  Written as a numeral so the kernel can
compare against it in one step; `floatOverflowBound_eq` below proves it
is `2 ^ 1024 - 2 ^ 970`. -/
def floatOverflowBound : ℤ :=
  179769313486231580793728971405303415079934132710037826936173778980444968292764750946649017977587207096330286416692887910946555547851940402630657488671505820681908902000708383676273854845817711531764475730270069855571366959622842914819860834936475292719074168444365510704342711559699508093042880177904174497792

/-- Calling the generator function `collatz(start)`: Python allocates a
suspended generator and executes none of the body — in particular the
`if start <= 0: raise ValueError` guard has not run yet. -/
def collatz (start : ℤ) : GenState :=
  GenState.start start

/-- One `next()` resumption of the `collatz` generator: from the initial
state the body runs the guard (raising `ValueError` for `start <= 0`) and
then yields `start`; from a suspended `yield` it re-tests `n != 1` and
runs `n = 3 * n + 1 if n % 2 else n / 2` — where the even branch's true
division raises `OverflowError` when the exact half is beyond the
binary64 range — then yields the new value, or stops. -/
def pyNext : GenState → PyNext × GenState
  | GenState.start s =>
    if s ≤ 0 then (PyNext.exn (PyExn.valueError "Start number must be > 0"), GenState.done)
    else (PyNext.val s, GenState.yielded s)
  | GenState.yielded n =>
    if n = 1 then (PyNext.stop, GenState.done)
    else if n % 2 = 0 ∧ (floatOverflowBound ≤ n / 2 ∨ n / 2 ≤ -floatOverflowBound) then
      (PyNext.exn (PyExn.overflowError "integer division result too large for a float"),
        GenState.done)
    else (PyNext.val (collatzStep n), GenState.yielded (collatzStep n))
  | GenState.done => (PyNext.stop, GenState.done)

/-- Drain the generator into a list, with fuel bounding the number of
`next()` calls: `some l` when the generator yields exactly `l` and stops
within the fuel, `none` on an exception or when fuel runs out first. -/
def collatzRun : ℕ → GenState → Option (List ℤ)
  | 0, g =>
    match (pyNext g).1 with
    | PyNext.stop => some []
    | _ => none
  | fuel + 1, g =>
    match pyNext g with
    | (PyNext.val v, g') => (collatzRun fuel g').map (fun l => v :: l)
    | (PyNext.stop, _) => some []
    | (PyNext.exn _, _) => none

/-- A natural number is exactly representable as an IEEE-754 binary64
float iff it is a mantissa of at most 53 bits times a power of two.
Python's true division `n / 2` of huge ints must round to such a value,
hence cannot equal the exact half when the half is not of this shape. -/
def reprDouble (n : ℕ) : Prop :=
  ∃ e k : ℕ, k < 2 ^ 53 ∧ n = k * 2 ^ e

/-! ### Bridge lemmas between the fuel-indexed digits and `Nat.digits` -/

theorem digitsLEAux_eq_digits : ∀ fuel n, n ≤ fuel → digitsLEAux fuel n = Nat.digits 10 n := by
  intro fuel
  induction fuel with
  | zero =>
    intro n hn
    interval_cases n
    simp [digitsLEAux]
  | succ fuel ih =>
    intro n hn
    by_cases h0 : n = 0
    · subst h0; simp [digitsLEAux]
    · have hpos : 0 < n := Nat.pos_of_ne_zero h0
      rw [digitsLEAux, if_neg h0, Nat.digits_def' (by norm_num : (1:ℕ) < 10) hpos,
        ih (n / 10) (by omega)]

theorem strDigits_eq {n : ℕ} (hn : n ≠ 0) : strDigits n = (Nat.digits 10 n).reverse := by
  rw [strDigits, if_neg hn, digitsLEAux_eq_digits n n le_rfl]

theorem strDigits_zero : strDigits 0 = [0] := rfl

theorem ofDigitsBE_eq (l : List ℕ) : ofDigitsBE l = Nat.ofDigits 10 l.reverse := by
  induction l with
  | nil => rfl
  | cons d l ih =>
    rw [ofDigitsBE, ih, List.reverse_cons, Nat.ofDigits_append, Nat.ofDigits_singleton,
      List.length_reverse, Nat.add_comm, Nat.mul_comm]

theorem pyReverse_eq (n : ℕ) : pyReverse n = Nat.ofDigits 10 ((Nat.digits 10 n).reverse) := by
  by_cases h0 : n = 0
  · subst h0; simp [pyReverse, strDigits_zero, ofDigitsBE]
  · rw [pyReverse, ofDigitsBE_eq, List.reverse_reverse, strDigits_eq h0]

theorem isPal_iff {n : ℕ} : isPal n = true ↔ Nat.digits 10 n = (Nat.digits 10 n).reverse := by
  rw [isPal, decide_eq_true_eq]
  by_cases h0 : n = 0
  · subst h0; simp [strDigits_zero]
  · rw [strDigits_eq h0, List.reverse_reverse, eq_comm]

/-! ### Digit reversal: involution on numbers without trailing zeros -/

theorem digits_pyReverse {x : ℕ} (hx : x % 10 ≠ 0) :
    Nat.digits 10 (pyReverse x) = (Nat.digits 10 x).reverse := by
  have hx0 : x ≠ 0 := by rintro rfl; exact hx rfl
  rw [pyReverse_eq]
  apply Nat.digits_ofDigits 10 (by norm_num)
  · intro d hd
    exact Nat.digits_lt_base (by norm_num) (List.mem_reverse.mp hd)
  · intro hne h0
    rw [List.getLast_eq_iff_getLast_eq_some hne, List.getLast?_reverse] at h0
    rw [Nat.digits_def' (by norm_num : (1:ℕ) < 10) (Nat.pos_of_ne_zero hx0)] at h0
    exact hx (Option.some_injective _ h0)

/-- C4: decimal digit reversal — convert to string, reverse, re-parse,
dropping digits that become leading zeros — is an involution on every
non-negative integer whose decimal representation has no trailing zero
digit (`x % 10 ≠ 0`): `reverse(reverse(x)) = x`. -/
theorem pyReverse_involution (x : ℕ) (hx : x % 10 ≠ 0) :
    pyReverse (pyReverse x) = x := by
  rw [pyReverse_eq (pyReverse x), digits_pyReverse hx, List.reverse_reverse,
    Nat.ofDigits_digits]

/-! ### Soundness of the reverse-and-add search -/

theorem findLychrel_sound :
    ∀ fuel x v k, findLychrel fuel x = some (v, k) →
      isPal v = true ∧ v = stepRA^[k] x ∧ ∀ j < k, isPal (stepRA^[j] x) = false := by
  intro fuel
  induction fuel with
  | zero =>
    intro x v k h
    rw [findLychrel] at h
    by_cases hp : isPal x
    · rw [if_pos hp] at h
      obtain ⟨rfl, rfl⟩ : x = v ∧ 0 = k := by
        simpa using h
      exact ⟨hp, rfl, by omega⟩
    · rw [if_neg hp] at h
      exact absurd h (by simp)
  | succ fuel ih =>
    intro x v k h
    rw [findLychrel] at h
    by_cases hp : isPal x
    · rw [if_pos hp] at h
      obtain ⟨rfl, rfl⟩ : x = v ∧ 0 = k := by
        simpa using h
      exact ⟨hp, rfl, by omega⟩
    · rw [if_neg hp] at h
      rcases hrec : findLychrel fuel (x + pyReverse x) with _ | ⟨v', k'⟩
      · rw [hrec] at h; exact absurd h (by simp)
      · rw [hrec] at h
        obtain ⟨rfl, rfl⟩ : v' = v ∧ k' + 1 = k := by
          simpa using h
        obtain ⟨h1, h2, h3⟩ := ih (x + pyReverse x) v' k' hrec
        refine ⟨h1, ?_, ?_⟩
        · rw [Function.iterate_succ_apply]
          exact h2
        · intro j hj
          match j with
          | 0 => simpa using eq_false_of_ne_true hp
          | j + 1 =>
            rw [Function.iterate_succ_apply]
            exact h3 j (by omega)

theorem isPal_iff_findLychrel (x : ℕ) :
    isPal x = true ↔ ∃ fuel, findLychrel fuel x = some (x, 0) := by
  constructor
  · intro hp
    exact ⟨0, by rw [findLychrel, if_pos hp]⟩
  · rintro ⟨fuel, h⟩
    exact (findLychrel_sound fuel x x 0 h).1

/-! ### Generalized Fibonacci: loop characterization -/

theorem fib_pos_eq (p q : ℤ) {n : ℤ} (hn : 1 ≤ n) :
    fibonacci n p q = (fibLoop p q (n - 1).toNat).2 := by
  by_cases h1 : n = 1
  · subst h1
    norm_num [fibonacci, fibLoop]
  · rw [fibonacci, if_neg (by omega)]

/-! ### Collatz model facts -/

theorem floatOverflowBound_eq : floatOverflowBound = 2 ^ 1024 - 2 ^ 970 := by
  norm_num [floatOverflowBound]

/-! ## The claims -/

/-- C1: the unbounded search returns `(55, 1)` on input 23; on input 89 it
terminates after exactly 24 reverse-and-add additions (not within 23) with
final value 8813200023188. -/
theorem findLychrel_23_and_89 :
    findLychrel 1 23 = some (55, 1) ∧
    findLychrel 24 89 = some (8813200023188, 24) ∧
    findLychrel 23 89 = none := by
  refine ⟨by decide, by decide, by decide⟩

/-- C2: whenever the unbounded search terminates on `x` returning `(v, k)`
(that is, `findLychrel fuel x = some (v, k)` for some fuel), `v` is a
decimal palindrome, `v` is the `k`-th iterate of `x` under
`x -> x + reverse(x)`, and every earlier iterate is not a palindrome — the
loop adds the reversal exactly while the current value is non-palindromic,
counting one per addition. -/
theorem findLychrel_reverse_add_iteration (fuel x v k : ℕ)
    (h : findLychrel fuel x = some (v, k)) :
    isPal v = true ∧ v = stepRA^[k] x ∧ ∀ j < k, isPal (stepRA^[j] x) = false :=
  findLychrel_sound fuel x v k h

theorem findLychrel_reverse_add_iteration_witness :
    isPal 55 = true ∧ (55 : ℕ) = stepRA^[1] 23 ∧ isPal (stepRA^[0] 23) = false := by
  have h := findLychrel_reverse_add_iteration 1 23 55 1 (by decide)
  exact ⟨h.1, h.2.1, h.2.2 0 (by norm_num)⟩

/-- C3: the decimal representation of `x` is a palindrome iff the unbounded
search returns exactly `(x, 0)` — a palindromic input is returned
immediately, with iteration count 0 and no addition performed. -/
theorem palindrome_fixed_point (x : ℕ) :
    isPal x = true ↔ ∃ fuel, findLychrel fuel x = some (x, 0) :=
  isPal_iff_findLychrel x

theorem pyReverse_involution_witness :
    123 % 10 ≠ 0 ∧ pyReverse (pyReverse 123) = 123 :=
  ⟨by decide, pyReverse_involution 123 (by decide)⟩

/-- C5 counterexample: `collatz` is a generator function, so calling
`collatz(0)` executes none of its body — the `start <= 0` guard included —
and returns an ordinary suspended generator, of exactly the same shape as
the healthy `collatz(1)`; no `ValueError` escapes at construction time.
The error only appears once the caller iterates: the first `next()` raises.
This refutes the claim that the error is raised eagerly at
sequence-construction time, detectable without iterating. -/
theorem collatz_zero_construction_no_error :
    collatz 0 = GenState.start 0 ∧ collatz 1 = GenState.start 1 ∧
    pyNext (collatz 0) =
      (PyNext.exn (PyExn.valueError "Start number must be > 0"), GenState.done) :=
  ⟨rfl, rfl, by decide⟩

/-- C5 (amended): for every `start ≤ 0`, `collatz(start)` raises the
invalid-argument `ValueError` lazily: construction returns a suspended
generator without raising, and the error is raised at the first `next()`
call, before any element is yielded.  For every `start ≥ 1` no
`ValueError` is ever raised — the first resumption yields `start`, and no
later resumption can raise the invalid-argument error — but resumptions
are not error-free: the even branch's float true division raises
`OverflowError` once the exact half reaches the binary64 overflow bound,
e.g. on the second `next()` of `collatz(2 ** 2000)`. -/
theorem collatz_error_lazy (s : ℤ) :
    collatz s = GenState.start s ∧
    (s ≤ 0 → pyNext (collatz s) =
      (PyNext.exn (PyExn.valueError "Start number must be > 0"), GenState.done)) ∧
    (1 ≤ s → pyNext (collatz s) = (PyNext.val s, GenState.yielded s)) ∧
    (∀ n msg, (pyNext (GenState.yielded n)).1 ≠ PyNext.exn (PyExn.valueError msg)) ∧
    (∀ msg, (pyNext GenState.done).1 ≠ PyNext.exn (PyExn.valueError msg)) ∧
    pyNext (GenState.yielded (2 ^ 2000)) =
      (PyNext.exn (PyExn.overflowError "integer division result too large for a float"),
        GenState.done) := by
  refine ⟨rfl, ?_, ?_, ?_, ?_, ?_⟩
  · intro hs
    simp [collatz, pyNext, hs]
  · intro hs
    have h0 : ¬ s ≤ 0 := by omega
    simp [collatz, pyNext, h0]
  · intro n msg
    by_cases h1 : n = 1
    · simp [pyNext, h1]
    · by_cases h2 : n % 2 = 0 ∧ (floatOverflowBound ≤ n / 2 ∨ n / 2 ≤ -floatOverflowBound)
      · simp [pyNext, h1, h2]
      · simp only [pyNext]
        rw [if_neg h1, if_neg h2]
        simp
  · intro msg
    simp [pyNext]
  · have h1 : (2 ^ 2000 : ℤ) ≠ 1 :=
      (one_lt_pow₀ (by norm_num : (1:ℤ) < 2) (by norm_num)).ne'
    have h2 : (2 ^ 2000 : ℤ) % 2 = 0 :=
      Int.emod_eq_zero_of_dvd (dvd_pow_self 2 (by norm_num))
    have he : (2 ^ 2000 : ℤ) = 2 ^ 1999 * 2 := by ring
    have h3 : floatOverflowBound ≤ (2 ^ 2000 : ℤ) / 2 := by
      rw [he, Int.mul_ediv_cancel _ (by norm_num), floatOverflowBound_eq]
      have hb : (2 : ℤ) ^ 1024 ≤ 2 ^ 1999 := pow_le_pow_right₀ (by norm_num) (by norm_num)
      have hp : (0 : ℤ) < 2 ^ 970 := by positivity
      linarith
    simp [pyNext, h1, h2, h3]

theorem collatz_error_lazy_witness :
    pyNext (collatz 0) =
      (PyNext.exn (PyExn.valueError "Start number must be > 0"), GenState.done) ∧
    pyNext (collatz 5) = (PyNext.val 5, GenState.yielded 5) :=
  ⟨(collatz_error_lazy 0).2.1 (by norm_num), (collatz_error_lazy 5).2.2.1 (by norm_num)⟩

/-- C6: in exact integer arithmetic the generator's trace from 5 is
`[5, 16, 8, 4, 2, 1]`; but the general claim fails on the code: the even
branch is Python's true division `n / 2`, which produces a float.  At
start 100000000000000002 the exact second element is 50000000000000001,
an odd number above `2 ^ 53`, which no IEEE-754 binary64 float can hold,
so the code's second yielded element is a rounded float different from
the predecessor's exact half. -/
theorem collatz_five_and_float_divergence :
    collatzRun 6 (collatz 5) = some [5, 16, 8, 4, 2, 1] ∧
    (pyNext (GenState.yielded 100000000000000002)).1 = PyNext.val 50000000000000001 ∧
    ¬ reprDouble 50000000000000001 := by
  refine ⟨by decide, by decide, ?_⟩
  rintro ⟨e, k, hk, hn⟩
  rcases e with _ | e
  · rw [pow_zero, Nat.mul_one] at hn
    omega
  · have h2 : 2 ∣ 50000000000000001 := ⟨k * 2 ^ e, by rw [hn, pow_succ]; ring⟩
    omega

/-- C7: the exactness claim fails on the code for the same reason: at
start 18014398509481990 the exact element after the first is
9007199254740995 = 2 ^ 53 + 3, an odd number above `2 ^ 53` that no
binary64 float represents, so the float produced by the code's `n / 2`
differs from the exact value — the yielded elements are not exact
integers once the magnitude passes the 53-bit mantissa. -/
theorem collatz_large_half_not_representable :
    (pyNext (GenState.yielded 18014398509481990)).1 = PyNext.val 9007199254740995 ∧
    ¬ reprDouble 9007199254740995 := by
  refine ⟨by decide, ?_⟩
  rintro ⟨e, k, hk, hn⟩
  rcases e with _ | e
  · rw [pow_zero, Nat.mul_one] at hn
    omega
  · have h2 : 2 ∣ 9007199254740995 := ⟨k * 2 ^ e, by rw [hn, pow_succ]; ring⟩
    omega

/-- C8: for every `n ≥ 2` and all integers `p`, `q`, the stepper satisfies
the recurrence `fibonacci n p q = p * fibonacci (n-1) p q - q * fibonacci (n-2) p q`. -/
theorem fibonacci_recurrence (n p q : ℤ) (hn : 2 ≤ n) :
    fibonacci n p q = p * fibonacci (n - 1) p q - q * fibonacci (n - 2) p q := by
  obtain ⟨m, hm⟩ : ∃ m : ℕ, (n - 1).toNat = m + 1 := ⟨(n - 2).toNat, by omega⟩
  have hln : fibonacci n p q = (fibLoop p q (m + 1)).2 := by
    rw [fib_pos_eq p q (by omega), hm]
  have hl1 : fibonacci (n - 1) p q = (fibLoop p q m).2 := by
    rw [fib_pos_eq p q (by omega)]
    have h : (n - 1 - 1).toNat = m := by omega
    rw [h]
  have hl2 : fibonacci (n - 2) p q = (fibLoop p q m).1 := by
    rcases m with _ | m'
    · have h2 : n = 2 := by omega
      subst h2
      norm_num [fibonacci, fibLoop]
    · rw [fib_pos_eq p q (by omega)]
      have h : (n - 2 - 1).toNat = m' := by omega
      rw [h]
      rfl
  rw [hln, hl1, hl2]
  rfl

theorem fibonacci_recurrence_witness :
    (2 : ℤ) ≤ 5 ∧ fibonacci 5 2 3 = 2 * fibonacci (5 - 1) 2 3 - 3 * fibonacci (5 - 2) 2 3 :=
  ⟨by norm_num, fibonacci_recurrence 5 2 3 (by norm_num)⟩

/-- C9: the base cases `fibonacci 0 p q = 0` and `fibonacci 1 p q = 1` hold
for all integers `p`, `q` — they do not depend on the parameters. -/
theorem fibonacci_base_cases (p q : ℤ) :
    fibonacci 0 p q = 0 ∧ fibonacci 1 p q = 1 := by
  constructor <;> simp [fibonacci]

/-- C10: for every negative `n` and all integers `p`, `q`, the `n in (0, 1)`
test fails, `range(1, n)` is empty so the loop body never runs, and the
function returns the initial `n2 = 1` without raising. -/
theorem fibonacci_neg (n p q : ℤ) (hn : n < 0) : fibonacci n p q = 1 := by
  rw [fibonacci, if_neg (by omega)]
  have h : (n - 1).toNat = 0 := by omega
  rw [h]
  rfl

theorem fibonacci_neg_witness :
    (-1 : ℤ) < 0 ∧ fibonacci (-1) 7 9 = 1 :=
  ⟨by norm_num, fibonacci_neg (-1) 7 9 (by norm_num)⟩
